import Mathlib

/-!
Shallow embedding of the OTH Launcher download-queue manager
(`src/downloads/download-queue-manager.js`) and module manager
(`src/modules/module-manager.js`), with theorems settling the
specification's claims about them.

JavaScript objects are modelled as Lean structures.  Object identity
(the same descriptor object being referenced from a queue, from
`this.activeDownloads` and from local variables, and mutated in place)
is modelled with an explicit heap of numbered references: queues hold
references, and in-place mutation is an update of the heap entry.
Possibly-absent JS properties are `Option` values; JS truthiness on
strings is `jsTruthy`.  Wall-clock readings (`Date.now()`) are `Nat`
parameters supplied by the environment, and network traffic is an
explicit script of responses and stream events whose callbacks the
single-threaded event loop runs in order.
-/

/-- Truthiness of a possibly-absent JS string: `undefined` and `""` are falsy. -/
def jsTruthy : Option String → Bool
  | none => false
  | some s => !s.isEmpty

/-- JS `a || b` on possibly-absent strings. -/
def jsOr (a b : Option String) : Option String := if jsTruthy a then a else b

/-- Interpolation of a possibly-absent value into a JS template literal
(`undefined` is printed literally). -/
def jsShow : Option String → String
  | none => "undefined"
  | some s => s

/-- Lookup in an association list (first binding wins), used for JS `Map`s
and for the object heap. -/
def getAssoc {α β : Type} [DecidableEq α] : List (α × β) → α → Option β
  | [], _ => none
  | p :: l, k => if p.1 = k then some p.2 else getAssoc l k

/-- JS `Map.prototype.set`: replace the binding in place when the key exists,
append it otherwise. -/
def setAssoc {α β : Type} [DecidableEq α] (l : List (α × β)) (k : α) (v : β) :
    List (α × β) :=
  if (l.find? (fun p => decide (p.1 = k))).isSome then
    l.map (fun p => if p.1 = k then (k, v) else p)
  else l ++ [(k, v)]

/-- Model of `findIndex` followed by `splice(index, 1)`: remove the first element
satisfying the predicate, returning it and the remaining list. -/
def extractFirst {α : Type} (p : α → Bool) : List α → Option (α × List α)
  | [] => none
  | x :: xs =>
    if p x then some (x, xs)
    else
      match extractFirst p xs with
      | some (y, ys) => some (y, x :: ys)
      | none => none

/-- A download descriptor (the object built by `addToQueue`). -/
structure Download where
  id : String
  name : Option String
  displayName : Option String
  downloadUrl : String
  version : Option String
  status : String
  progress : Int
  downloadedBytes : Nat
  totalBytes : Nat
  speed : ℚ
  timeRemaining : Option ℚ
  addedAt : Nat
  startedAt : Option Nat
  completedAt : Option Nat
  error : Option String
  filePath : Option String
  deriving Repr, DecidableEq

/-- The caller-supplied `downloadInfo` argument of `addToQueue`; every
property may be absent. -/
structure DownloadInfo where
  id : Option String
  name : Option String
  displayName : Option String
  downloadUrl : String
  version : Option String
  deriving Repr, DecidableEq

/-- Events emitted by the queue manager, carrying the reference of the
affected descriptor. -/
inductive QEvent where
  | queuesUpdated
  | downloadStarted (r : Nat)
  | downloadProgress (r : Nat)
  | downloadComplete (r : Nat)
  | downloadError (r : Nat) (msg : String)
  | downloadPaused (r : Nat)
  | downloadCancelled (r : Nat)
  deriving Repr, DecidableEq

/-- The state of a `DownloadQueueManager`: descriptor objects live in `heap`
(keyed by reference), the three queues and the active-download map hold
references, `paused` is the `pausedDownloads` set, `persisted` the last
snapshot written to the store, `events` the emission log. -/
structure QMState where
  heap : List (Nat × Download)
  nextRef : Nat
  scheduled : List Nat
  upNext : List Nat
  complete : List Nat
  active : List (String × Nat)
  paused : List String
  persisted : Option (List Download × List Download × List Download)
  events : List QEvent
  deriving Repr, DecidableEq

/-- A fresh manager over an empty store (`loadQueues` defaults). -/
def initState : QMState :=
  { heap := [], nextRef := 0, scheduled := [], upNext := [], complete := [],
    active := [], paused := [], persisted := none, events := [] }

/-- The `id` of the descriptor a reference points to (queue references are
always live; the default is never reached from the API). -/
def refId (heap : List (Nat × Download)) (r : Nat) : String :=
  ((getAssoc heap r).map Download.id).getD ""

/-- In-place mutation of the object a reference points to. -/
def updateRef (heap : List (Nat × Download)) (r : Nat) (f : Download → Download) :
    List (Nat × Download) :=
  heap.map (fun p => if p.1 = r then (p.1, f p.2) else p)

/-- In-place mutation lifted to the manager state. -/
def heapUpdate (st : QMState) (r : Nat) (f : Download → Download) : QMState :=
  { st with heap := updateRef st.heap r f }

/-- Append an event to the emission log. -/
def emit (st : QMState) (e : QEvent) : QMState :=
  { st with events := st.events ++ [e] }

/-- The full-queue snapshot handed to the store and to `queues-updated`
consumers. -/
def snapshotOf (st : QMState) : List Download × List Download × List Download :=
  (st.scheduled.filterMap (getAssoc st.heap),
   st.upNext.filterMap (getAssoc st.heap),
   st.complete.filterMap (getAssoc st.heap))

/-- Model of `saveQueues`: persist the three queues as a unit and emit `queues-updated`. -/
def saveQueues (st : QMState) : QMState :=
  emit { st with persisted := some (snapshotOf st) } QEvent.queuesUpdated

/-- Model of `generateDownloadId`: the template `${moduleInfo.id || moduleInfo.name}-${Date.now()}`. -/
def generateDownloadId (info : DownloadInfo) (now : Nat) : String :=
  jsShow (jsOr info.id info.name) ++ "-" ++ toString now

/-- The descriptor object literal built by `addToQueue`.  The `id:` entry is
written before `...downloadInfo`, so a caller-supplied `id` property
overrides the generated one; the entries after the spread (`status`,
`progress`, the byte counters, the timestamps) override any caller value. -/
def newDownload (info : DownloadInfo) (now : Nat) : Download :=
  { id := (info.id).getD (generateDownloadId info now),
    name := info.name, displayName := info.displayName,
    downloadUrl := info.downloadUrl, version := info.version,
    status := "queued", progress := 0, downloadedBytes := 0, totalBytes := 0,
    speed := 0, timeRemaining := none, addedAt := now,
    startedAt := none, completedAt := none, error := none, filePath := none }

/-- Model of `addToQueue`: allocate the descriptor, push it onto `scheduled`, persist
and emit, and return it. -/
def addToQueue (st : QMState) (info : DownloadInfo) (now : Nat) :
    QMState × Download :=
  let d := newDownload info now
  let st' := { st with heap := (st.nextRef, d) :: st.heap,
                       nextRef := st.nextRef + 1,
                       scheduled := st.scheduled ++ [st.nextRef] }
  (saveQueues st', d)

/-- Model of `moveToUpNext`: splice the first scheduled descriptor with the given id
out of `scheduled` and push it onto `upNext`; throws when absent. -/
def moveToUpNext (st : QMState) (downloadId : String) :
    QMState × Except String Nat :=
  match extractFirst (fun r => decide (refId st.heap r = downloadId)) st.scheduled with
  | none => (st, Except.error "Download not found in scheduled queue")
  | some (r, rest) =>
    (saveQueues { st with scheduled := rest, upNext := st.upNext ++ [r] },
     Except.ok r)

/-- Model of `moveToScheduled`: the reverse relocation, from `upNext` back to `scheduled`. -/
def moveToScheduled (st : QMState) (downloadId : String) :
    QMState × Except String Nat :=
  match extractFirst (fun r => decide (refId st.heap r = downloadId)) st.upNext with
  | none => (st, Except.error "Download not found in up next queue")
  | some (r, rest) =>
    (saveQueues { st with upNext := rest, scheduled := st.scheduled ++ [r] },
     Except.ok r)

/-- Model of `cancelDownload`: drop the active-transfer handle (destroying the request
is an external effect), clear the paused flag, and if a descriptor with the
id is still in `upNext` mark it `cancelled` and emit `download-cancelled`. -/
def cancelDownload (st : QMState) (downloadId : String) : QMState :=
  let st1 :=
    if (getAssoc st.active downloadId).isSome then
      { st with active := st.active.filter (fun p => decide (p.1 ≠ downloadId)) }
    else st
  let st2 := { st1 with paused := st1.paused.filter (fun i => decide (i ≠ downloadId)) }
  match st2.upNext.find? (fun r => decide (refId st2.heap r = downloadId)) with
  | some r =>
    emit (heapUpdate st2 r (fun d => { d with status := "cancelled" }))
      (QEvent.downloadCancelled r)
  | none => st2

/-- Model of `removeFromQueue`: remove the first match from `scheduled` and from
`upNext`, cancel the transfer when the id is active, and persist when
anything was found. -/
def removeFromQueue (st : QMState) (downloadId : String) : QMState × Bool :=
  let s1 := extractFirst (fun r => decide (refId st.heap r = downloadId)) st.scheduled
  let st1 := match s1 with
             | some (_, rest) => { st with scheduled := rest }
             | none => st
  let s2 := extractFirst (fun r => decide (refId st1.heap r = downloadId)) st1.upNext
  let st2 := match s2 with
             | some (_, rest) => { st1 with upNext := rest }
             | none => st1
  let isActive := (getAssoc st2.active downloadId).isSome
  let st3 := if isActive then cancelDownload st2 downloadId else st2
  if s1.isSome || s2.isSome || isActive then (saveQueues st3, true) else (st3, false)

/-- Model of `pauseDownload`: throws when the id is not active; otherwise adds the id
to the paused set, sets the descriptor's status to `paused`, persists and
emits `download-paused`. -/
def pauseDownload (st : QMState) (downloadId : String) :
    QMState × Except String Unit :=
  match getAssoc st.active downloadId with
  | none => (st, Except.error "Download not active")
  | some r =>
    let st1 := { st with paused :=
      if st.paused.contains downloadId then st.paused else st.paused ++ [downloadId] }
    let st2 := heapUpdate st1 r (fun d => { d with status := "paused" })
    let st3 := saveQueues st2
    (emit st3 (QEvent.downloadPaused r), Except.ok ())

/-- Model of `Math.round` on an exact rational (round half up): `⌊q + 1/2⌋`. -/
def jsRound (q : ℚ) : ℤ := ⌊q + 1 / 2⌋

/-- One event on the wire / write stream while a body is streaming.  For a
data chunk, `pausedHas` is the value `this.pausedDownloads.has(download.id)`
observed when the callback fires (pause and resume run between callbacks on
the same event-loop thread). -/
inductive BodyEvent where
  | chunk (pausedHas : Bool) (len : Nat)
  | streamError (msg : String)
  | requestError (msg : String)
  | finished
  deriving Repr, DecidableEq

/-- One step of the network environment: either a response arrives for the
issued GET, or the request itself errors before any response. -/
inductive NetStep where
  | response (statusCode : Nat) (location : Option String)
      (contentLength : Option Nat) (body : List BodyEvent)
  | reqError (msg : String)
  deriving Repr, DecidableEq

/-- The `data` handler's bookkeeping after the paused check: accumulate
`downloadedBytes` on the descriptor and recompute `progress` by
`Math.round((downloadedBytes / totalBytes) * 100)` when `totalBytes > 0`
(the throttled speed / ETA / `download-progress` block is wall-clock
dependent and not modelled). -/
def chunkStep (st : QMState) (r : Nat) (totalBytes written : Nat) : QMState :=
  heapUpdate st r (fun d =>
    { d with downloadedBytes := written,
             progress :=
               if totalBytes > 0 then
                 jsRound (((written : ℚ) / (totalBytes : ℚ)) * 100)
               else d.progress })

/-- Streaming the body of a 200 response into the destination file.
`written` is the cumulative `downloadedBytes`, `file` the bytes on disk
(`none` when no file exists at the destination).  On a chunk with the
paused flag set the request is destroyed and the promise rejects
`Download paused` without touching the file; a write-stream error unlinks
the partial file before rejecting; a request error rejects leaving the
file; `finish` resolves.  The `[]` case is an environment that never ends
the stream (the engine has no timeout, so the promise stays pending;
it is not a behaviour of the code). -/
def runBody (r : Nat) (totalBytes : Nat) :
    List BodyEvent → QMState → Nat → Option Nat →
    QMState × Except String Unit × Option Nat
  | [], st, _, file => (st, Except.error "stream stalled", file)
  | BodyEvent.chunk pausedHas len :: evs, st, written, file =>
    if pausedHas then (st, Except.error "Download paused", file)
    else
      let written' := written + len
      let st' := chunkStep st r totalBytes written'
      runBody r totalBytes evs st' written' (file.map (fun n => n + len))
  | BodyEvent.streamError msg :: _, st, _, _ => (st, Except.error msg, none)
  | BodyEvent.requestError msg :: _, st, _, file => (st, Except.error msg, file)
  | BodyEvent.finished :: _, st, _, file => (st, Except.ok (), file)

/-- Model of `downloadFile`: follow 301/302 redirects through the rest of the script
(rejecting when the redirect has no `Location`), reject on any other
non-200 status before a write stream exists, and otherwise record
`totalBytes` (`parseInt(content-length) || 0`), create the destination file
and stream the body.  Returns the state, the promise outcome and the file
at the destination.  An exhausted script is a request that never completes
(not a behaviour of the code). -/
def downloadFile (st : QMState) (r : Nat) :
    List NetStep → QMState × Except String Unit × Option Nat
  | [] => (st, Except.error "no response", none)
  | NetStep.reqError msg :: _ => (st, Except.error msg, none)
  | NetStep.response statusCode location contentLength body :: rest =>
    if statusCode = 302 ∨ statusCode = 301 then
      match location with
      | some _ => downloadFile st r rest
      | none => (st, Except.error "Redirect location not found", none)
    else if statusCode ≠ 200 then
      (st, Except.error ("Download failed with status " ++ toString statusCode), none)
    else
      let totalBytes := contentLength.getD 0
      let st1 := heapUpdate st r (fun d => { d with totalBytes := totalBytes })
      runBody r totalBytes body st1 0 (some 0)

/-- The sanitized destination file name
`<name-or-download with non-alphanumerics replaced by _>-v<version-or-1.0.0>.zip`. -/
def downloadFileName (d : Download) : String :=
  String.map (fun c => if c.isAlphanum then c else '_')
      (if jsTruthy d.name then (d.name).getD "" else "download")
    ++ "-v" ++ (if jsTruthy d.version then (d.version).getD "" else "1.0.0") ++ ".zip"

/-- Resolution of the request URL against `OTH_STORE_URL`. -/
def fullDownloadUrl (baseUrl url : String) : String :=
  if url.startsWith "/" then baseUrl ++ url else url

/-- The synchronous prefix of `startDownload`, up to the `await` of the
transfer: mark the descriptor `downloading`, stamp `startedAt`, persist,
register the active-transfer handle and emit `download-started`. -/
def startDownloadBegin (st : QMState) (r : Nat) (now : Nat) : QMState :=
  let st1 := heapUpdate st r (fun d =>
    { d with status := "downloading", startedAt := some now })
  let st2 := saveQueues st1
  let st3 := { st2 with active := setAssoc st2.active (refId st2.heap r) r }
  emit st3 (QEvent.downloadStarted r)

/-- The success continuation of `startDownload`: mark complete, splice the
first `upNext` entry with the descriptor's id, unshift the descriptor onto
`complete`, drop the active handle, persist and emit `download-complete`
(the 500 ms self-chaining timer is wall-clock dependent and not modelled). -/
def startDownloadSuccess (st : QMState) (r : Nat) (now : Nat) (filePath : String) :
    QMState :=
  let st1 := heapUpdate st r (fun d =>
    { d with status := "complete", progress := 100, completedAt := some now,
             filePath := some filePath })
  let i := refId st1.heap r
  let st2 := match extractFirst (fun r2 => decide (refId st1.heap r2 = i)) st1.upNext with
             | some (_, rest) => { st1 with upNext := rest }
             | none => st1
  let st3 := { st2 with complete := r :: st2.complete }
  let st4 := { st3 with active := st3.active.filter (fun p => decide (p.1 ≠ i)) }
  emit (saveQueues st4) (QEvent.downloadComplete r)

/-- The catch block of `startDownload`: record the error on the descriptor,
drop the active handle, persist and emit `download-error` (the rejection is
then re-thrown to the caller). -/
def startDownloadOnError (st : QMState) (r : Nat) (msg : String) : QMState :=
  let st1 := heapUpdate st r (fun d =>
    { d with status := "error", error := some msg })
  let i := refId st1.heap r
  let st2 := { st1 with active := st1.active.filter (fun p => decide (p.1 ≠ i)) }
  emit (saveQueues st2) (QEvent.downloadError r msg)

/-- Model of `startDownload` run to completion with no interleaved queue operations:
the synchronous prefix, the transfer, then the success or catch
continuation. -/
def startDownload (st : QMState) (r : Nat) (now : Nat) (dir : String)
    (script : List NetStep) : QMState × Except String Unit :=
  let st1 := startDownloadBegin st r now
  let filePath := dir ++ "/" ++ (((getAssoc st1.heap r).map downloadFileName).getD "")
  match downloadFile st1 r script with
  | (st2, Except.ok _, _) => (startDownloadSuccess st2 r now filePath, Except.ok ())
  | (st2, Except.error e, _) => (startDownloadOnError st2 r e, Except.error e)

/-- Model of `startNextDownload`: null when `upNext` is empty or its head is already
active; otherwise start the head, and on failure mark it errored again,
persist, emit `download-error` a second time and re-throw. -/
def startNextDownload (st : QMState) (now : Nat) (dir : String)
    (script : List NetStep) : QMState × Except String (Option Nat) :=
  match st.upNext with
  | [] => (st, Except.ok none)
  | r :: _ =>
    if (getAssoc st.active (refId st.heap r)).isSome then (st, Except.ok none)
    else
      match startDownload st r now dir script with
      | (st1, Except.ok _) => (st1, Except.ok (some r))
      | (st1, Except.error e) =>
        let st2 := heapUpdate st1 r (fun d =>
          { d with status := "error", error := some e })
        (emit (saveQueues st2) (QEvent.downloadError r e), Except.error e)

/-- The parsed `module.json` manifest of a package archive; every property
may be absent. -/
structure Manifest where
  id : Option String
  name : Option String
  version : Option String
  category : Option String
  author : Option String
  displayName : Option String
  main : Option String
  deriving Repr, DecidableEq

/-- The extracted contents of a package archive: its manifest (`none` when
`module.json` is missing or unparsable) and its on-disk size as computed by
the recursive directory walk. -/
structure Archive where
  manifest : Option Manifest
  size : Nat
  deriving Repr, DecidableEq

/-- The caller-supplied `moduleInfo` metadata spread over the manifest when
an installation record is built (database values take priority); every
property may be absent.  The download descriptor passed by the IPC caller
carries further properties that ride along into the record without
affecting any claim. -/
structure ModuleInfo where
  id : Option String
  name : Option String
  version : Option String
  category : Option String
  displayName : Option String
  deriving Repr, DecidableEq

/-- An installation record: the manifest merged with the caller metadata and
the installation stamps. -/
structure InstalledModule where
  id : String
  name : String
  version : String
  category : String
  author : String
  displayName : Option String
  main : Option String
  installPath : String × String
  installedAt : Nat
  enabled : Bool
  size : Nat
  deriving Repr, DecidableEq

/-- The state of a `ModuleManager`: the persisted `installed-modules` list,
the in-memory `installedModules` cache, the `activeModules` keys, the
permanent module directories keyed by `(category, id)` relative to the
modules root, and the `temp/install-<timestamp>` staging directories. -/
structure MMState where
  storeList : List InstalledModule
  memMap : List (String × InstalledModule)
  activeIds : List String
  installedDirs : List ((String × String) × Archive)
  tempDirs : List (Nat × Archive)
  deriving Repr, DecidableEq

/-- Model of `validateManifest`: required fields must be truthy (the missing ones are
listed in the error) and the category must be one of the four recognized
values. -/
def validateManifest (m : Manifest) : Except String Unit :=
  let required : List (String × Option String) :=
    [("id", m.id), ("name", m.name), ("version", m.version),
     ("category", m.category), ("author", m.author)]
  let missing := required.filter (fun p => !jsTruthy p.2)
  if missing.length > 0 then
    Except.error ("Invalid manifest: missing fields "
      ++ String.intercalate ", " (missing.map (fun p => p.1)))
  else if !(["themes", "plugins", "tools", "integrations"].contains
      ((m.category).getD "")) then
    Except.error ("Invalid category: " ++ (m.category).getD "")
  else Except.ok ()

/-- Model of `getInstalledModule`: read-through cache — answer from the in-memory map
when present, otherwise search the persisted list by the record's `id`
field and populate the cache on a hit. -/
def getInstalledModule (st : MMState) (moduleId : String) :
    MMState × Option InstalledModule :=
  match getAssoc st.memMap moduleId with
  | some m => (st, some m)
  | none =>
    match st.storeList.find? (fun m => decide (m.id = moduleId)) with
    | some m => ({ st with memMap := setAssoc st.memMap moduleId m }, some m)
    | none => (st, none)

/-- Model of `disableModule`: no-op result when already disabled; otherwise unload
(the category loaders are external collaborators with no modelled state),
clear `enabled` in the persisted list and the cache, and drop the id from
`activeModules`. -/
def disableModule (st : MMState) (moduleId : String) : MMState × Except String String :=
  let (st1, found) := getInstalledModule st moduleId
  match found with
  | none => (st1, Except.error "Module not found")
  | some m =>
    if !m.enabled then (st1, Except.ok "Module already disabled")
    else
      let st2 := { st1 with
        storeList := st1.storeList.map (fun rec =>
          if rec.id = moduleId then { rec with enabled := false } else rec),
        memMap := setAssoc st1.memMap moduleId { m with enabled := false },
        activeIds := st1.activeIds.filter (fun i => decide (i ≠ moduleId)) }
      (st2, Except.ok "disabled")

/-- Model of `uninstallModule`: look the record up (throws when unknown), disable it
first when enabled, force-delete its installed directory, and remove every
record with that `id` from the persisted list and the cache. -/
def uninstallModule (st : MMState) (moduleId : String) : MMState × Except String Unit :=
  let (st1, found) := getInstalledModule st moduleId
  match found with
  | none => (st1, Except.error "Module not found")
  | some m =>
    let st2 := if m.enabled then (disableModule st1 moduleId).1 else st1
    let st3 := { st2 with installedDirs :=
      st2.installedDirs.filter (fun e => decide (e.1 ≠ m.installPath)) }
    let st4 := { st3 with
      storeList := st3.storeList.filter (fun rec => decide (rec.id ≠ moduleId)),
      memMap := st3.memMap.filter (fun e => decide (e.1 ≠ moduleId)) }
    (st4, Except.ok ())

/-- Step 1 of `installModule`: extract the archive into the
`temp/install-<timestamp>` staging directory. -/
def installExtract (st : MMState) (archive : Archive) (ts : Nat) : MMState :=
  { st with tempDirs := setAssoc st.tempDirs ts archive }

/-- Step 4 of `installModule`: look up an existing installation with the
manifest's id; an identical version is a duplicate-install error, a
different version is fully uninstalled before the install proceeds. -/
def installResolveConflict (st : MMState) (m : Manifest) : MMState × Except String Unit :=
  let (st1, existing) := getInstalledModule st ((m.id).getD "")
  match existing with
  | none => (st1, Except.ok ())
  | some ex =>
    if m.version = some ex.version then
      (st1, Except.error ("Module " ++ jsShow m.displayName ++ " v"
        ++ jsShow m.version ++ " is already installed"))
    else
      uninstallModule st1 ((m.id).getD "")

/-- The failure sweep of `installModule`: remove every `install-*` staging
directory under the temp root (deletion failures are swallowed). -/
def cleanupTemp (st : MMState) : MMState := { st with tempDirs := [] }

/-- The installation record built in step 6: manifest fields spread first,
caller metadata (database values) spread over them, then the forced
`installPath` / `installedAt` / `enabled := false` / `size` entries. -/
def mkInstallation (m : Manifest) (info : ModuleInfo) (dir : String × String)
    (ts : Nat) (size : Nat) : InstalledModule :=
  { id := (info.id).getD ((m.id).getD ""),
    name := (info.name).getD ((m.name).getD ""),
    version := (info.version).getD ((m.version).getD ""),
    category := (info.category).getD ((m.category).getD ""),
    author := (m.author).getD "",
    displayName := match info.displayName with
                   | some s => some s
                   | none => m.displayName,
    main := m.main,
    installPath := dir, installedAt := ts, enabled := false, size := size }

/-- Model of `installModule`: extract to staging, read and validate the manifest,
resolve a same-id conflict (duplicate version throws, different version is
uninstalled first), move the staging directory to `<category>/<id>`,
register the merged record in the persisted list and the cache (the
archive-file unlink is best-effort and outside the modelled state).  On any
failure after extraction the staging directories are swept and the error is
re-thrown. -/
def installModule (st : MMState) (archive : Archive) (ts : Nat) (info : ModuleInfo) :
    MMState × Except String InstalledModule :=
  let st1 := installExtract st archive ts
  match archive.manifest with
  | none => (cleanupTemp st1, Except.error "Module manifest (module.json) not found or invalid")
  | some m =>
    match validateManifest m with
    | Except.error e => (cleanupTemp st1, Except.error e)
    | Except.ok _ =>
      match installResolveConflict st1 m with
      | (st2, Except.error e) => (cleanupTemp st2, Except.error e)
      | (st2, Except.ok _) =>
        let moduleDir : String × String := ((m.category).getD "", (m.id).getD "")
        let st3 := { st2 with
          tempDirs := st2.tempDirs.filter (fun e => decide (e.1 ≠ ts)),
          installedDirs := setAssoc st2.installedDirs moduleDir archive }
        let installation := mkInstallation m info moduleDir ts archive.size
        let st4 := { st3 with
          storeList := st3.storeList ++ [installation],
          memMap := setAssoc st3.memMap ((m.id).getD "") installation }
        (st4, Except.ok installation)

/-- Base-10 parse of a digit character list (the accumulator form of a
decimal parse). -/
def parseDigits : List Char → Nat → Option Nat
  | [], acc => some acc
  | c :: cs, acc =>
    if c.isDigit then parseDigits cs (acc * 10 + (c.toNat - 48)) else none

/-- The value of a nonempty all-digit character list, `none` otherwise. -/
def natOfDigits (l : List Char) : Option Nat :=
  match l with
  | [] => none
  | _ => parseDigits l 0

/-- JS `String.prototype.split('.')` for the one-character separator:
split the character list at every `.`. -/
def splitDotChars : List Char → List (List Char)
  | [] => [[]]
  | c :: cs =>
    if c = '.' then [] :: splitDotChars cs
    else
      match splitDotChars cs with
      | s :: rest => (c :: s) :: rest
      | [] => [[c]]

/-- The dot-separated components of a version string. -/
def jsSplitDot (v : String) : List String :=
  (splitDotChars v.data).map (fun l => { data := l })

/-- JS `Number()` applied to one dot-free component produced by
`split('.')`: a digit string (optionally signed) parses to its value, the
empty string to `0`, anything else to `NaN` (`none`). -/
def jsNumber (s : String) : Option Int :=
  match natOfDigits s.data with
  | some n => some n
  | none =>
    match s.data with
    | [] => some 0
    | c :: cs =>
      if c = '-' then
        match natOfDigits cs with
        | some n => some (-(n : Int))
        | none => none
      else none

/-- The numeric component list of a version string: `split('.')`, `Number`
on each part, with the loop's `parts[i] || 0` fallback turning `NaN` (and
an out-of-range index, handled by the padding cases of `compareLoop`)
into `0`. -/
def versionParts (v : String) : List Int :=
  (jsSplitDot v).map (fun s => (jsNumber s).getD 0)

/-- The tail of the comparison loop once the first version's components are
exhausted: its missing components read as `0` against the remainder of the
second version. -/
def compareLoopNil : List Int → Int
  | [] => 0
  | b :: bs => if 0 > b then 1 else if 0 < b then -1 else compareLoopNil bs

/-- The comparison loop of `compareVersions`: first differing component
wins, a missing component reads as `0`, equality yields `0` after
`max(length)` iterations. -/
def compareLoop : List Int → List Int → Int
  | [], bs => compareLoopNil bs
  | a :: as, [] =>
    if a > 0 then 1 else if a < 0 then -1 else compareLoop as []
  | a :: as, b :: bs =>
    if a > b then 1 else if a < b then -1 else compareLoop as bs

/-- Model of `compareVersions`: split both versions on `.`, convert the components
with `Number`, and compare component-wise with missing (and `NaN`)
components read as `0`. -/
def compareVersions (v1 v2 : String) : Int :=
  compareLoop (versionParts v1) (versionParts v2)

/-- One catalog entry returned by the store API; the core reads only
`version`. -/
structure CatalogEntry where
  version : String
  deriving Repr, DecidableEq

/-- One element of the list returned by `checkForUpdates`. -/
structure UpdateRecord where
  moduleId : String
  currentVersion : String
  latestVersion : String
  deriving Repr, DecidableEq

/-- Model of `checkForUpdates` over an already-resolved module list: query the
catalog by module name (`none` models a fetch that threw and was caught and
skipped), and keep the module when the response is successful, non-empty,
and its first entry's version compares strictly greater than the installed
version. -/
def checkForUpdates (modules : List InstalledModule)
    (catalog : String → Option (Bool × List CatalogEntry)) : List UpdateRecord :=
  modules.filterMap (fun m =>
    match catalog m.name with
    | none => none
    | some (success, entries) =>
      match entries with
      | [] => none
      | latest :: _ =>
        if success ∧ compareVersions latest.version m.version > 0 then
          some { moduleId := m.id, currentVersion := m.version,
                 latestVersion := latest.version }
        else none)

/-- The descriptor ids a queue of references currently denotes. -/
def idsOf (heap : List (Nat × Download)) (q : List Nat) : List String :=
  q.filterMap (fun r => (getAssoc heap r).map Download.id)

/-- All ids across the `scheduled` and `upNext` queues, in queue order. -/
def queueIds (st : QMState) : List String :=
  idsOf st.heap st.scheduled ++ idsOf st.heap st.upNext

/-- The claim's mutual-exclusion invariant: no id is in both `scheduled`
and `upNext`. -/
def MutualExclusion (st : QMState) : Prop :=
  ∀ i : String, ¬(i ∈ idsOf st.heap st.scheduled ∧ i ∈ idsOf st.heap st.upNext)

/-- The queue operations quantified over by claim C3. -/
inductive QOp where
  | add (info : DownloadInfo) (now : Nat)
  | toUpNext (downloadId : String)
  | toScheduled (downloadId : String)
  | remove (downloadId : String)
  deriving Repr, DecidableEq

/-- Run one queue operation (a thrown not-found error leaves the state as
the operation found it). -/
def applyOp (st : QMState) : QOp → QMState
  | QOp.add info now => (addToQueue st info now).1
  | QOp.toUpNext i => (moveToUpNext st i).1
  | QOp.toScheduled i => (moveToScheduled st i).1
  | QOp.remove i => (removeFromQueue st i).1

/-- Run a sequence of queue operations. -/
def runOps (st : QMState) : List QOp → QMState
  | [] => st
  | op :: ops => runOps (applyOp st op) ops

/-- Whether an operation is an `addToQueue` whose descriptor id (generated,
or taken from the caller's `id` property) is not already present in the
queues. -/
def freshAdd (st : QMState) : QOp → Bool
  | QOp.add info now => !(decide ((newDownload info now).id ∈ queueIds st))
  | _ => true

/-- Whether every `addToQueue` along a run introduces a fresh descriptor id. -/
def freshRun : QMState → List QOp → Bool
  | _, [] => true
  | st, op :: ops => freshAdd st op && freshRun (applyOp st op) ops

/-- Well-formedness carried through the C3 induction: queue references were
allocated below `nextRef`, and the ids across `scheduled` and `upNext` are
pairwise distinct. -/
def QWF (st : QMState) : Prop :=
  (∀ r ∈ st.scheduled, r < st.nextRef) ∧ (∀ r ∈ st.upNext, r < st.nextRef)
  ∧ (queueIds st).Nodup

/-- Modelled from the spec: "numeric dot-component comparison, missing
components treated as 0" — pad both component lists with zeros to equal
length and return the sign of the first difference. -/
def specCmpPadded : List Int → List Int → Int
  | a :: as, b :: bs =>
    if a > b then 1 else if a < b then -1 else specCmpPadded as bs
  | _, _ => 0

/-- Modelled from the spec: component-wise numeric version comparison with
zero-padding to the longer length. -/
def specVersionCompare (l1 l2 : List Int) : Int :=
  specCmpPadded
    (l1 ++ List.replicate (max l1.length l2.length - l1.length) 0)
    (l2 ++ List.replicate (max l1.length l2.length - l2.length) 0)

/-- A caller input carrying its own `id` property (a store module record). -/
def cexInfo : DownloadInfo :=
  { id := some "mod-a", name := some "Mod A", displayName := none,
    downloadUrl := "/files/a.zip", version := some "1.0.0" }

/-- A manager holding one descriptor, referenced from `upNext`. -/
def cexSt : QMState :=
  { initState with heap := [(0, newDownload cexInfo 0)], nextRef := 1, upNext := [0] }

/-- The queue state after enqueuing `cexInfo` (claim C1 scenario). -/
def c1Queued : QMState := (addToQueue initState cexInfo 100).1

/-- ... after promoting it to `upNext`. -/
def c1UpNext : QMState := (moveToUpNext c1Queued "mod-a").1

/-- ... after the synchronous prefix of `startDownload`. -/
def c1Started : QMState := startDownloadBegin c1UpNext 0 200

/-- ... after `pauseDownload` runs while the transfer is in flight. -/
def c1Paused : QMState := (pauseDownload c1Started "mod-a").1

/-- The next data chunk arrives; its paused check reads the live
`pausedDownloads` set of `c1Paused`. -/
def c1Transfer : QMState × Except String Unit × Option Nat :=
  runBody 0 1000 [BodyEvent.chunk (c1Paused.paused.contains "mod-a") 100] c1Paused 0 (some 0)

/-- The rejection of the transfer promise reaches the catch block of
`startDownload`. -/
def c1Final : QMState :=
  match c1Transfer with
  | (s, Except.error msg, _) => startDownloadOnError s 0 msg
  | (s, Except.ok _, _) => s

/-- An installed module record for the module-manager scenarios. -/
def wEx : InstalledModule :=
  { id := "a", name := "A", version := "1.0.0", category := "tools",
    author := "me", displayName := some "A", main := none,
    installPath := ("tools", "a"), installedAt := 0, enabled := false, size := 10 }

/-- A manifest with the same id and version as `wEx`. -/
def wManifest : Manifest :=
  { id := some "a", name := some "A", version := some "1.0.0",
    category := some "tools", author := some "me", displayName := some "A",
    main := none }

/-- A manifest with the same id as `wEx` and a newer version. -/
def wManifest2 : Manifest := { wManifest with version := some "2.0.0" }

/-- An archive packaging `wManifest`. -/
def wArchive : Archive := { manifest := some wManifest, size := 12 }

/-- An archive packaging `wManifest2`. -/
def wArchive2 : Archive := { manifest := some wManifest2, size := 14 }

/-- A module-manager state with `wEx` installed (persisted but not cached). -/
def wSt : MMState :=
  { storeList := [wEx], memMap := [], activeIds := [],
    installedDirs := [(("tools", "a"), { manifest := some wManifest, size := 10 })],
    tempDirs := [] }

/-- Caller metadata that overrides nothing. -/
def wInfo : ModuleInfo :=
  { id := none, name := none, version := none, category := none, displayName := none }

/-- Caller metadata as install-from-download passes it: the download
descriptor, whose `id` is the generated name-plus-timestamp queue id and
differs from the manifest id. -/
def wInfoDesc : ModuleInfo :=
  { id := some "a-1234", name := none, version := none, category := none,
    displayName := none }

theorem getAssoc_cons {α β : Type} [DecidableEq α] (p : α × β)
    (l : List (α × β)) (k : α) :
    getAssoc (p :: l) k = if p.1 = k then some p.2 else getAssoc l k := rfl

theorem getAssoc_eq_none_iff {α β : Type} [DecidableEq α] (l : List (α × β)) (k : α) :
    getAssoc l k = none ↔ ∀ p ∈ l, p.1 ≠ k := by
  induction l with
  | nil => simp [getAssoc]
  | cons p t ih =>
    by_cases hp : p.1 = k
    · simp [getAssoc_cons, hp]
    · simp [getAssoc_cons, hp, ih]

theorem getAssoc_append {α β : Type} [DecidableEq α] (l1 l2 : List (α × β)) (k : α) :
    getAssoc (l1 ++ l2) k =
      (if (getAssoc l1 k).isSome then getAssoc l1 k else getAssoc l2 k) := by
  induction l1 with
  | nil => simp [getAssoc]
  | cons p t ih =>
    by_cases hp : p.1 = k
    · simp [getAssoc_cons, hp]
    · simp [getAssoc_cons, hp, ih]

theorem getAssoc_map_set {α β : Type} [DecidableEq α] (l : List (α × β)) (k : α) (v : β)
    (h : (l.find? (fun p => decide (p.1 = k))).isSome) :
    getAssoc (l.map (fun p => if p.1 = k then (k, v) else p)) k = some v := by
  induction l with
  | nil => simp [List.find?] at h
  | cons p t ih =>
    rw [List.map_cons]
    by_cases hp : p.1 = k
    · rw [if_pos hp, getAssoc_cons, if_pos rfl]
    · rw [if_neg hp, getAssoc_cons, if_neg hp]
      have h' : (t.find? (fun p => decide (p.1 = k))).isSome := by
        simpa [List.find?, hp] using h
      exact ih h'

theorem getAssoc_map_set_ne {α β : Type} [DecidableEq α] (l : List (α × β))
    (k k' : α) (v : β) (h : k' ≠ k) :
    getAssoc (l.map (fun p => if p.1 = k then (k, v) else p)) k' = getAssoc l k' := by
  induction l with
  | nil => simp [getAssoc]
  | cons p t ih =>
    rw [List.map_cons, getAssoc_cons]
    by_cases hp : p.1 = k
    · have hk : k ≠ k' := fun he => h he.symm
      have hp' : p.1 ≠ k' := hp ▸ hk
      rw [if_pos hp]
      show (if k = k' then some v else _) = _
      rw [if_neg hk, ih, getAssoc_cons, if_neg hp']
    · rw [if_neg hp, getAssoc_cons]
      by_cases hq : p.1 = k'
      · rw [if_pos hq, if_pos hq]
      · rw [if_neg hq, if_neg hq, ih]

theorem getAssoc_setAssoc_self {α β : Type} [DecidableEq α] (l : List (α × β))
    (k : α) (v : β) : getAssoc (setAssoc l k v) k = some v := by
  unfold setAssoc
  by_cases hf : (l.find? (fun p => decide (p.1 = k))).isSome = true
  · rw [if_pos hf]
    exact getAssoc_map_set l k v hf
  · rw [if_neg hf, getAssoc_append]
    have hnone : getAssoc l k = none := by
      rw [getAssoc_eq_none_iff]
      intro p hp he
      rw [List.find?_isSome] at hf
      exact hf ⟨p, hp, by simpa using he⟩
    rw [hnone]
    simp [getAssoc]

theorem getAssoc_setAssoc_ne {α β : Type} [DecidableEq α] (l : List (α × β))
    (k k' : α) (v : β) (h : k' ≠ k) :
    getAssoc (setAssoc l k v) k' = getAssoc l k' := by
  unfold setAssoc
  by_cases hf : (l.find? (fun p => decide (p.1 = k))).isSome = true
  · rw [if_pos hf]
    exact getAssoc_map_set_ne l k k' v h
  · rw [if_neg hf, getAssoc_append]
    by_cases hl : (getAssoc l k').isSome
    · simp [hl]
    · have h1 : getAssoc l k' = none := by
        revert hl; cases getAssoc l k' <;> simp
      have h2 : getAssoc [(k, v)] k' = none := by
        rw [getAssoc_cons, if_neg (fun he => h he.symm)]; rfl
      simp [h1, h2]

theorem getAssoc_filter_ne {α β : Type} [DecidableEq α] (l : List (α × β)) (k : α) :
    getAssoc (l.filter (fun e => decide (e.1 ≠ k))) k = none := by
  induction l with
  | nil => rfl
  | cons p t ih =>
    rw [List.filter_cons]
    by_cases hp : p.1 = k
    · have hd : (decide (p.1 ≠ k)) = false := by simp [hp]
      rw [hd, if_neg Bool.false_ne_true]
      exact ih
    · have hd : (decide (p.1 ≠ k)) = true := by simp [hp]
      rw [hd, if_pos rfl, getAssoc_cons, if_neg hp]
      exact ih

theorem extractFirst_eq_some {α : Type} (p : α → Bool) (l : List α) (x : α)
    (l' : List α) (h : extractFirst p l = some (x, l')) :
    p x = true ∧ ∃ A B, l = A ++ x :: B ∧ l' = A ++ B := by
  induction l generalizing l' with
  | nil => simp [extractFirst] at h
  | cons a t ih =>
    by_cases hp : p a
    · rw [extractFirst, if_pos hp] at h
      simp only [Option.some.injEq, Prod.mk.injEq] at h
      obtain ⟨hx, hl⟩ := h
      subst hx; subst hl
      exact ⟨hp, [], t, rfl, rfl⟩
    · rw [extractFirst, if_neg hp] at h
      match he : extractFirst p t with
      | none => rw [he] at h; simp at h
      | some (y, ys) =>
        rw [he] at h
        simp only [Option.some.injEq, Prod.mk.injEq] at h
        obtain ⟨hy, hl⟩ := h
        subst hy
        obtain ⟨hpy, A, B, ht, hys⟩ := ih ys he
        refine ⟨hpy, a :: A, B, by simp [ht], ?_⟩
        rw [← hl, hys]
        rfl

@[simp] theorem emit_heap (st : QMState) (e : QEvent) : (emit st e).heap = st.heap := rfl

@[simp] theorem emit_nextRef (st : QMState) (e : QEvent) : (emit st e).nextRef = st.nextRef := rfl

@[simp] theorem emit_scheduled (st : QMState) (e : QEvent) : (emit st e).scheduled = st.scheduled := rfl

@[simp] theorem emit_upNext (st : QMState) (e : QEvent) : (emit st e).upNext = st.upNext := rfl

@[simp] theorem emit_complete (st : QMState) (e : QEvent) : (emit st e).complete = st.complete := rfl

@[simp] theorem emit_active (st : QMState) (e : QEvent) : (emit st e).active = st.active := rfl

@[simp] theorem emit_paused (st : QMState) (e : QEvent) : (emit st e).paused = st.paused := rfl

@[simp] theorem emit_events (st : QMState) (e : QEvent) : (emit st e).events = st.events ++ [e] := rfl

@[simp] theorem saveQueues_heap (st : QMState) : (saveQueues st).heap = st.heap := rfl

@[simp] theorem saveQueues_nextRef (st : QMState) : (saveQueues st).nextRef = st.nextRef := rfl

@[simp] theorem saveQueues_scheduled (st : QMState) : (saveQueues st).scheduled = st.scheduled := rfl

@[simp] theorem saveQueues_upNext (st : QMState) : (saveQueues st).upNext = st.upNext := rfl

@[simp] theorem saveQueues_complete (st : QMState) : (saveQueues st).complete = st.complete := rfl

@[simp] theorem saveQueues_active (st : QMState) : (saveQueues st).active = st.active := rfl

@[simp] theorem saveQueues_paused (st : QMState) : (saveQueues st).paused = st.paused := rfl

@[simp] theorem saveQueues_events (st : QMState) :
    (saveQueues st).events = st.events ++ [QEvent.queuesUpdated] := rfl

@[simp] theorem saveQueues_persisted (st : QMState) :
    (saveQueues st).persisted = some (snapshotOf st) := rfl

@[simp] theorem heapUpdate_heap (st : QMState) (r : Nat) (f : Download → Download) :
    (heapUpdate st r f).heap = updateRef st.heap r f := rfl

@[simp] theorem heapUpdate_nextRef (st : QMState) (r : Nat) (f : Download → Download) :
    (heapUpdate st r f).nextRef = st.nextRef := rfl

@[simp] theorem heapUpdate_scheduled (st : QMState) (r : Nat) (f : Download → Download) :
    (heapUpdate st r f).scheduled = st.scheduled := rfl

@[simp] theorem heapUpdate_upNext (st : QMState) (r : Nat) (f : Download → Download) :
    (heapUpdate st r f).upNext = st.upNext := rfl

@[simp] theorem heapUpdate_active (st : QMState) (r : Nat) (f : Download → Download) :
    (heapUpdate st r f).active = st.active := rfl

@[simp] theorem heapUpdate_paused (st : QMState) (r : Nat) (f : Download → Download) :
    (heapUpdate st r f).paused = st.paused := rfl

theorem getAssoc_updateRef (h : List (Nat × Download)) (r k : Nat)
    (f : Download → Download) :
    getAssoc (updateRef h r f) k
      = (getAssoc h k).map (fun d => if k = r then f d else d) := by
  unfold updateRef
  induction h with
  | nil => rfl
  | cons p t ih =>
    rw [List.map_cons, getAssoc_cons, getAssoc_cons]
    have hkey : (if p.1 = r then (p.1, f p.2) else p).1 = p.1 := by
      by_cases hr : p.1 = r <;> simp [hr]
    rw [hkey]
    by_cases hp : p.1 = k
    · subst hp
      by_cases hr : p.1 = r <;> simp [hr]
    · rw [if_neg hp, if_neg hp, ih]

theorem idsOf_append (h : List (Nat × Download)) (q1 q2 : List Nat) :
    idsOf h (q1 ++ q2) = idsOf h q1 ++ idsOf h q2 :=
  List.filterMap_append q1 q2 _

theorem idsOf_cons (h : List (Nat × Download)) (x : Nat) (q : List Nat) :
    idsOf h (x :: q) = idsOf h [x] ++ idsOf h q := by
  cases hg : getAssoc h x <;> simp [idsOf, hg]

theorem idsOf_updateRef (h : List (Nat × Download)) (r : Nat)
    (f : Download → Download) (hf : ∀ d, (f d).id = d.id) (q : List Nat) :
    idsOf (updateRef h r f) q = idsOf h q := by
  apply List.filterMap_congr
  intro a _
  rw [getAssoc_updateRef]
  cases getAssoc h a with
  | none => rfl
  | some d =>
    by_cases hr : a = r <;> simp [hr, hf]

theorem idsOf_cons_heap (hp : List (Nat × Download)) (n : Nat) (d : Download)
    (q : List Nat) (hq : ∀ r ∈ q, r < n) :
    idsOf ((n, d) :: hp) q = idsOf hp q := by
  apply List.filterMap_congr
  intro a ha
  rw [getAssoc_cons]
  have hne : ¬((n, d).1 = a) := by
    have := hq a ha
    simp only []
    omega
  rw [if_neg hne]

theorem idsOf_singleton_live (h : List (Nat × Download)) (r : Nat) (d : Download)
    (hg : getAssoc h r = some d) : idsOf h [r] = [d.id] := by
  simp [idsOf, hg]

theorem nodup_of_count_le {l l' : List String}
    (h : ∀ a, l'.count a ≤ l.count a) (hl : l.Nodup) : l'.Nodup := by
  rw [List.nodup_iff_count_le_one] at hl ⊢
  intro a
  exact le_trans (h a) (hl a)

theorem queueIds_addToQueue (st : QMState) (info : DownloadInfo) (now : Nat)
    (hb1 : ∀ r ∈ st.scheduled, r < st.nextRef)
    (hb2 : ∀ r ∈ st.upNext, r < st.nextRef) :
    queueIds (addToQueue st info now).1
      = (idsOf st.heap st.scheduled ++ [(newDownload info now).id])
        ++ idsOf st.heap st.upNext := by
  unfold addToQueue queueIds
  simp only [saveQueues_heap, saveQueues_scheduled, saveQueues_upNext]
  rw [idsOf_append, idsOf_cons_heap _ _ _ _ hb1, idsOf_cons_heap _ _ _ _ hb2]
  rw [idsOf_singleton_live ((st.nextRef, newDownload info now) :: st.heap) st.nextRef
    (newDownload info now) (by rw [getAssoc_cons, if_pos rfl])]

theorem qwf_addToQueue (st : QMState) (info : DownloadInfo) (now : Nat)
    (hwf : QWF st) (hfresh : (newDownload info now).id ∉ queueIds st) :
    QWF (addToQueue st info now).1 := by
  obtain ⟨hb1, hb2, hnd⟩ := hwf
  refine ⟨?_, ?_, ?_⟩
  · show ∀ r ∈ st.scheduled ++ [st.nextRef], r < st.nextRef + 1
    intro r hr
    rcases List.mem_append.mp hr with hr | hr
    · have := hb1 r hr; omega
    · simp at hr; omega
  · show ∀ r ∈ st.upNext, r < st.nextRef + 1
    intro r hr
    have := hb2 r hr; omega
  · rw [queueIds_addToQueue st info now hb1 hb2]
    have happ : (idsOf st.heap st.scheduled ++ [(newDownload info now).id])
        ++ idsOf st.heap st.upNext
        = idsOf st.heap st.scheduled
          ++ (newDownload info now).id :: idsOf st.heap st.upNext := by simp
    rw [happ]
    have hperm : List.Perm
        (idsOf st.heap st.scheduled ++ (newDownload info now).id :: idsOf st.heap st.upNext)
        ((newDownload info now).id :: (idsOf st.heap st.scheduled ++ idsOf st.heap st.upNext)) :=
      List.perm_middle
    rw [hperm.nodup_iff]
    exact List.nodup_cons.mpr ⟨hfresh, hnd⟩

theorem qwf_moveToUpNext (st : QMState) (i : String) (hwf : QWF st) :
    QWF (moveToUpNext st i).1 := by
  obtain ⟨hb1, hb2, hnd⟩ := hwf
  unfold moveToUpNext
  rcases he : extractFirst (fun r => decide (refId st.heap r = i)) st.scheduled with
    _ | ⟨r, rest⟩
  · exact ⟨hb1, hb2, hnd⟩
  · obtain ⟨hpr, A, B, hAB, hrest⟩ := extractFirst_eq_some _ _ _ _ he
    refine ⟨?_, ?_, ?_⟩
    · show ∀ r' ∈ rest, r' < st.nextRef
      intro r' hr'
      apply hb1
      rw [hAB]
      rw [hrest] at hr'
      rcases List.mem_append.mp hr' with h | h
      · exact List.mem_append.mpr (Or.inl h)
      · exact List.mem_append.mpr (Or.inr (List.mem_cons_of_mem _ h))
    · show ∀ r' ∈ st.upNext ++ [r], r' < st.nextRef
      intro r' hr'
      rcases List.mem_append.mp hr' with h | h
      · exact hb2 r' h
      · simp at h
        subst h
        apply hb1
        rw [hAB]
        exact List.mem_append.mpr (Or.inr (List.mem_cons_self _ _))
    · show (idsOf st.heap rest ++ idsOf st.heap (st.upNext ++ [r])).Nodup
      apply nodup_of_count_le _ hnd
      intro a
      rw [hrest]
      unfold queueIds
      rw [hAB]
      rw [idsOf_append st.heap A B, idsOf_append st.heap st.upNext [r],
          idsOf_append st.heap A (r :: B), idsOf_cons st.heap r B]
      simp only [List.count_append]
      omega

theorem qwf_moveToScheduled (st : QMState) (i : String) (hwf : QWF st) :
    QWF (moveToScheduled st i).1 := by
  obtain ⟨hb1, hb2, hnd⟩ := hwf
  unfold moveToScheduled
  rcases he : extractFirst (fun r => decide (refId st.heap r = i)) st.upNext with
    _ | ⟨r, rest⟩
  · exact ⟨hb1, hb2, hnd⟩
  · obtain ⟨hpr, A, B, hAB, hrest⟩ := extractFirst_eq_some _ _ _ _ he
    refine ⟨?_, ?_, ?_⟩
    · show ∀ r' ∈ st.scheduled ++ [r], r' < st.nextRef
      intro r' hr'
      rcases List.mem_append.mp hr' with h | h
      · exact hb1 r' h
      · simp at h
        subst h
        apply hb2
        rw [hAB]
        exact List.mem_append.mpr (Or.inr (List.mem_cons_self _ _))
    · show ∀ r' ∈ rest, r' < st.nextRef
      intro r' hr'
      apply hb2
      rw [hAB]
      rw [hrest] at hr'
      rcases List.mem_append.mp hr' with h | h
      · exact List.mem_append.mpr (Or.inl h)
      · exact List.mem_append.mpr (Or.inr (List.mem_cons_of_mem _ h))
    · show (idsOf st.heap (st.scheduled ++ [r]) ++ idsOf st.heap rest).Nodup
      apply nodup_of_count_le _ hnd
      intro a
      rw [hrest]
      unfold queueIds
      rw [hAB]
      rw [idsOf_append st.heap A B, idsOf_append st.heap st.scheduled [r],
          idsOf_append st.heap A (r :: B), idsOf_cons st.heap r B]
      simp only [List.count_append]
      omega

theorem cancelDownload_scheduled (st : QMState) (i : String) :
    (cancelDownload st i).scheduled = st.scheduled := by
  unfold cancelDownload
  split <;> (simp only []; split <;> simp)

theorem cancelDownload_upNext (st : QMState) (i : String) :
    (cancelDownload st i).upNext = st.upNext := by
  unfold cancelDownload
  split <;> (simp only []; split <;> simp)

theorem cancelDownload_nextRef (st : QMState) (i : String) :
    (cancelDownload st i).nextRef = st.nextRef := by
  unfold cancelDownload
  split <;> (simp only []; split <;> simp)

theorem cancelDownload_idsOf (st : QMState) (i : String) (q : List Nat) :
    idsOf (cancelDownload st i).heap q = idsOf st.heap q := by
  unfold cancelDownload
  split <;> (simp only []; split) <;>
    first
      | rfl
      | (rw [emit_heap, heapUpdate_heap]
         exact idsOf_updateRef _ _ (fun d => { d with status := "cancelled" })
           (fun d => rfl) q)

theorem qwf_cancelDownload (st : QMState) (i : String) (h : QWF st) :
    QWF (cancelDownload st i) := by
  obtain ⟨h1, h2, h3⟩ := h
  refine ⟨?_, ?_, ?_⟩
  · simp only [cancelDownload_scheduled, cancelDownload_nextRef]
    exact h1
  · simp only [cancelDownload_upNext, cancelDownload_nextRef]
    exact h2
  · show (idsOf (cancelDownload st i).heap (cancelDownload st i).scheduled
      ++ idsOf (cancelDownload st i).heap (cancelDownload st i).upNext).Nodup
    rw [cancelDownload_scheduled, cancelDownload_upNext, cancelDownload_idsOf,
      cancelDownload_idsOf]
    exact h3

theorem mem_of_extract {α : Type} (p : α → Bool) (l : List α) (x : α)
    (rest : List α) (he : extractFirst p l = some (x, rest)) :
    ∀ y ∈ rest, y ∈ l := by
  obtain ⟨_, A, B, hl, hr⟩ := extractFirst_eq_some _ _ _ _ he
  subst hl; subst hr
  intro y hy
  rcases List.mem_append.mp hy with h | h
  · exact List.mem_append.mpr (Or.inl h)
  · exact List.mem_append.mpr (Or.inr (List.mem_cons_of_mem _ h))

theorem count_idsOf_extract (h : List (Nat × Download)) (p : Nat → Bool)
    (l : List Nat) (x : Nat) (rest : List Nat)
    (he : extractFirst p l = some (x, rest)) (a : String) :
    (idsOf h rest).count a ≤ (idsOf h l).count a := by
  obtain ⟨_, A, B, hl, hr⟩ := extractFirst_eq_some _ _ _ _ he
  subst hl; subst hr
  rw [idsOf_append h A B, idsOf_append h A (x :: B), idsOf_cons h x B]
  simp only [List.count_append]
  omega

theorem qwf_extract_scheduled (st : QMState) (p : Nat → Bool) (x : Nat)
    (rest : List Nat) (he : extractFirst p st.scheduled = some (x, rest))
    (h : QWF st) : QWF { st with scheduled := rest } := by
  obtain ⟨h1, h2, h3⟩ := h
  refine ⟨?_, h2, ?_⟩
  · intro r hr
    exact h1 r (mem_of_extract _ _ _ _ he r hr)
  · show (idsOf st.heap rest ++ idsOf st.heap st.upNext).Nodup
    apply nodup_of_count_le _ h3
    intro a
    unfold queueIds
    simp only [List.count_append]
    have := count_idsOf_extract st.heap p st.scheduled x rest he a
    omega

theorem qwf_extract_upNext (st : QMState) (p : Nat → Bool) (x : Nat)
    (rest : List Nat) (he : extractFirst p st.upNext = some (x, rest))
    (h : QWF st) : QWF { st with upNext := rest } := by
  obtain ⟨h1, h2, h3⟩ := h
  refine ⟨h1, ?_, ?_⟩
  · intro r hr
    exact h2 r (mem_of_extract _ _ _ _ he r hr)
  · show (idsOf st.heap st.scheduled ++ idsOf st.heap rest).Nodup
    apply nodup_of_count_le _ h3
    intro a
    unfold queueIds
    simp only [List.count_append]
    have := count_idsOf_extract st.heap p st.upNext x rest he a
    omega

theorem qwf_removeFromQueue (st : QMState) (i : String) (hwf : QWF st) :
    QWF (removeFromQueue st i).1 := by
  unfold removeFromQueue
  rcases he1 : extractFirst (fun r => decide (refId st.heap r = i)) st.scheduled with
    _ | ⟨r1, rest1⟩ <;>
    simp only [he1] <;>
    rcases he2 : extractFirst (fun r => decide (refId st.heap r = i)) st.upNext with
      _ | ⟨r2, rest2⟩ <;>
      simp only [he2] <;>
      by_cases ha : (getAssoc st.active i).isSome = true <;>
        simp only [ha, Option.isSome_some, Option.isSome_none, Bool.false_or,
          Bool.true_or, Bool.or_true, Bool.or_false, if_true, if_false,
          Bool.false_eq_true, ite_true, ite_false]
  · exact qwf_cancelDownload st i hwf
  · exact hwf
  · exact qwf_cancelDownload _ i (qwf_extract_upNext st _ r2 rest2 he2 hwf)
  · exact qwf_extract_upNext st _ r2 rest2 he2 hwf
  · exact qwf_cancelDownload _ i (qwf_extract_scheduled st _ r1 rest1 he1 hwf)
  · exact qwf_extract_scheduled st _ r1 rest1 he1 hwf
  · exact qwf_cancelDownload _ i
      (qwf_extract_upNext { st with scheduled := rest1 } _ r2 rest2 he2
        (qwf_extract_scheduled st _ r1 rest1 he1 hwf))
  · exact qwf_extract_upNext { st with scheduled := rest1 } _ r2 rest2 he2
      (qwf_extract_scheduled st _ r1 rest1 he1 hwf)

theorem qwf_applyOp (st : QMState) (op : QOp) (hwf : QWF st)
    (hf : freshAdd st op = true) : QWF (applyOp st op) := by
  cases op with
  | add info now =>
    apply qwf_addToQueue st info now hwf
    simp only [freshAdd, Bool.not_eq_true', decide_eq_false_iff_not] at hf
    exact hf
  | toUpNext i => exact qwf_moveToUpNext st i hwf
  | toScheduled i => exact qwf_moveToScheduled st i hwf
  | remove i => exact qwf_removeFromQueue st i hwf

theorem qwf_runOps (st : QMState) (ops : List QOp) (hwf : QWF st)
    (hf : freshRun st ops = true) : QWF (runOps st ops) := by
  induction ops generalizing st with
  | nil => exact hwf
  | cons op ops ih =>
    rw [freshRun, Bool.and_eq_true] at hf
    exact ih (applyOp st op) (qwf_applyOp st op hwf hf.1) hf.2

theorem qwf_init : QWF initState := by
  refine ⟨?_, ?_, ?_⟩ <;> simp [initState, queueIds, idsOf]

/-- C3 counterexample: `addToQueue` twice with the same store-module input
(whose `id` property overrides the generated id both times) and then
`moveToUpNext` moves only the first copy, leaving the id `mod-a` in both
`scheduled` and `upNext`. -/
theorem queue_ops_mutual_exclusion_cex :
    ¬ MutualExclusion (runOps initState
      [QOp.add cexInfo 0, QOp.add cexInfo 1, QOp.toUpNext "mod-a"]) :=
  fun h => h "mod-a" ⟨by decide, by decide⟩

/-- C3 (amended): for every sequence of `addToQueue` / `moveToUpNext` /
`moveToScheduled` / `removeFromQueue` operations starting from empty queues
in which every `addToQueue` call introduces a descriptor id not already
present in `scheduled` or `upNext`, every descriptor id appears in at most
one of the `scheduled` and `upNext` queues at any time. -/
theorem queue_ops_mutual_exclusion (ops : List QOp)
    (h : freshRun initState ops = true) :
    MutualExclusion (runOps initState ops) := by
  obtain ⟨_, _, hnd⟩ := qwf_runOps initState ops qwf_init h
  unfold queueIds at hnd
  intro i hi
  exact (List.nodup_append.mp hnd).2.2 hi.1 hi.2

/-- Witness for the C3 theorem at a concrete two-operation run. -/
theorem queue_ops_mutual_exclusion_witness :
    freshRun initState [QOp.add cexInfo 0, QOp.toUpNext "mod-a"] = true
    ∧ MutualExclusion (runOps initState [QOp.add cexInfo 0, QOp.toUpNext "mod-a"]) :=
  ⟨by decide, queue_ops_mutual_exclusion [QOp.add cexInfo 0, QOp.toUpNext "mod-a"] (by decide)⟩

/-- C7 counterexample: for an input carrying its own `id` property the
returned descriptor's id is that property (`mod-a`), not the generated
name-plus-timestamp id (`mod-a-5`). -/
theorem addToQueue_generated_id_cex :
    ((addToQueue initState cexInfo 5).2).id = "mod-a"
    ∧ ((addToQueue initState cexInfo 5).2).id ≠ generateDownloadId cexInfo 5 :=
  ⟨by decide, by decide⟩

/-- C7 (amended): `addToQueue` returns a descriptor whose id is the input's
own `id` property when present (the object spread overrides the generated
id) and the generated name-plus-timestamp id otherwise, with status
`queued`, progress 0 and zeroed byte counters; the descriptor is appended
to the tail of `scheduled`, the queues are persisted and one
`queues-updated` event is emitted. -/
theorem addToQueue_spec (st : QMState) (info : DownloadInfo) (now : Nat) :
    ((addToQueue st info now).2).id
      = (match info.id with
         | some i => i
         | none => generateDownloadId info now)
    ∧ ((addToQueue st info now).2).status = "queued"
    ∧ ((addToQueue st info now).2).progress = 0
    ∧ ((addToQueue st info now).2).downloadedBytes = 0
    ∧ ((addToQueue st info now).2).totalBytes = 0
    ∧ (addToQueue st info now).1.scheduled = st.scheduled ++ [st.nextRef]
    ∧ (addToQueue st info now).1.upNext = st.upNext
    ∧ (addToQueue st info now).1.complete = st.complete
    ∧ getAssoc (addToQueue st info now).1.heap st.nextRef
        = some (addToQueue st info now).2
    ∧ (addToQueue st info now).1.persisted
        = some (snapshotOf (addToQueue st info now).1)
    ∧ (addToQueue st info now).1.events = st.events ++ [QEvent.queuesUpdated] := by
  refine ⟨?_, rfl, rfl, rfl, rfl, rfl, rfl, rfl, ?_, rfl, rfl⟩
  · cases hi : info.id <;> simp [addToQueue, newDownload, hi]
  · show getAssoc ((st.nextRef, newDownload info now) :: st.heap) st.nextRef
      = some (newDownload info now)
    rw [getAssoc_cons, if_pos rfl]

/-- C8: when `upNext` is empty, or its head descriptor's id is already in
the active-transfer map, `startNextDownload` returns null and the entire
manager state (queues, active map, paused set, persisted snapshot, event
log) is unchanged. -/
theorem startNextDownload_noop (st : QMState) (now : Nat) (dir : String)
    (script : List NetStep)
    (h : st.upNext = [] ∨ ∃ r rest, st.upNext = r :: rest
          ∧ (getAssoc st.active (refId st.heap r)).isSome = true) :
    startNextDownload st now dir script = (st, Except.ok none) := by
  rcases h with h | ⟨r, rest, hu, ha⟩
  · unfold startNextDownload
    rw [h]
  · unfold startNextDownload
    simp only [hu]
    rw [if_pos ha]

/-- Witness for the C8 theorem on the empty manager. -/
theorem startNextDownload_noop_witness :
    (initState.upNext = [] ∨ ∃ r rest, initState.upNext = r :: rest
       ∧ (getAssoc initState.active (refId initState.heap r)).isSome = true)
    ∧ startNextDownload initState 0 "downloads" [] = (initState, Except.ok none) :=
  ⟨Or.inl rfl, startNextDownload_noop initState 0 "downloads" [] (Or.inl rfl)⟩

/-- C1: after `pauseDownload` the descriptor's status is `paused`, but the
chunk callback's rejection (`Download paused`) reaches the generic catch
block of `startDownload`, which overwrites the status with `error` and
emits `download-error` for the paused descriptor — the code evaluated on
the failing scenario. -/
theorem pause_abort_marks_error :
    ((getAssoc c1Paused.heap 0).map Download.status) = some "paused"
    ∧ c1Transfer.2.1 = Except.error "Download paused"
    ∧ ((getAssoc c1Final.heap 0).map Download.status) = some "error"
    ∧ QEvent.downloadError 0 "Download paused" ∈ c1Final.events :=
  ⟨by decide, by rfl, by decide, by decide⟩

theorem specVersionCompare_nil_left (l : List Int) :
    specVersionCompare [] l = specCmpPadded (List.replicate l.length 0) l := by
  unfold specVersionCompare
  simp

theorem specVersionCompare_nil_right (l : List Int) :
    specVersionCompare l [] = specCmpPadded l (List.replicate l.length 0) := by
  unfold specVersionCompare
  simp

theorem specVersionCompare_cons (a b : Int) (as bs : List Int) :
    specVersionCompare (a :: as) (b :: bs)
      = (if a > b then 1 else if a < b then -1 else specVersionCompare as bs) := by
  unfold specVersionCompare
  have h1 : max (a :: as).length (b :: bs).length - (a :: as).length
      = max as.length bs.length - as.length := by
    simp [List.length_cons]
    omega
  have h2 : max (a :: as).length (b :: bs).length - (b :: bs).length
      = max as.length bs.length - bs.length := by
    simp [List.length_cons]
    omega
  rw [h1, h2, List.cons_append, List.cons_append]
  rfl

theorem compareLoopNil_eq_spec (l : List Int) :
    compareLoopNil l = specVersionCompare [] l := by
  rw [specVersionCompare_nil_left]
  induction l with
  | nil => rfl
  | cons b bs ih =>
    rw [compareLoopNil, List.length_cons, List.replicate_succ]
    show _ = (if 0 > b then 1 else if 0 < b then -1
      else specCmpPadded (List.replicate bs.length 0) bs)
    rw [ih]

theorem compareLoop_nil_right_eq_spec (l : List Int) :
    compareLoop l [] = specVersionCompare l [] := by
  rw [specVersionCompare_nil_right]
  induction l with
  | nil => rfl
  | cons a as ih =>
    rw [compareLoop, List.length_cons, List.replicate_succ]
    show _ = (if a > 0 then 1 else if a < 0 then -1
      else specCmpPadded as (List.replicate as.length 0))
    rw [ih]

theorem compareLoop_eq_spec (l1 l2 : List Int) :
    compareLoop l1 l2 = specVersionCompare l1 l2 := by
  induction l1 generalizing l2 with
  | nil => rw [compareLoop]; exact compareLoopNil_eq_spec l2
  | cons a as ih =>
    cases l2 with
    | nil => exact compareLoop_nil_right_eq_spec (a :: as)
    | cons b bs =>
      rw [compareLoop, specVersionCompare_cons, ih bs]

theorem versionParts_of_digits (v : String)
    (h : ∀ c ∈ jsSplitDot v, (natOfDigits c.data).isSome = true) :
    versionParts v = (jsSplitDot v).map (fun c => ((natOfDigits c.data).getD 0 : Int)) := by
  unfold versionParts
  apply List.map_congr_left
  intro c hc
  rcases hn : natOfDigits c.data with _ | n
  · have := h c hc
    rw [hn] at this
    simp at this
  · rw [jsNumber, hn]
    rfl

theorem checkForUpdates_mem (modules : List InstalledModule)
    (catalog : String → Option (Bool × List CatalogEntry)) (u : UpdateRecord) :
    u ∈ checkForUpdates modules catalog ↔
      ∃ m ∈ modules, ∃ entries latest rest,
        catalog m.name = some (true, entries) ∧ entries = latest :: rest
        ∧ compareVersions latest.version m.version > 0
        ∧ u = { moduleId := m.id, currentVersion := m.version,
                latestVersion := latest.version } := by
  unfold checkForUpdates
  rw [List.mem_filterMap]
  constructor
  · rintro ⟨m, hm, hf⟩
    rcases hc : catalog m.name with _ | ⟨success, entries⟩
    · rw [hc] at hf
      simp at hf
    · rw [hc] at hf
      dsimp only [] at hf
      rcases entries with _ | ⟨latest, rest⟩
      · simp at hf
      · dsimp only [] at hf
        by_cases hcond : success = true ∧ compareVersions latest.version m.version > 0
        · rw [if_pos hcond] at hf
          refine ⟨m, hm, latest :: rest, latest, rest, ?_, rfl, hcond.2, ?_⟩
          · rw [hc, hcond.1]
          · exact (Option.some.injEq .. ▸ hf).symm
        · rw [if_neg hcond] at hf
          simp at hf
  · rintro ⟨m, hm, entries, latest, rest, hc, hent, hcmp, hu⟩
    subst hent
    refine ⟨m, hm, ?_⟩
    rw [hc]
    dsimp only []
    rw [if_pos ⟨rfl, hcmp⟩, hu]

/-- C9: on version strings whose dot-components are all digit strings,
`compareVersions` implements the spec's component-wise numeric comparison
with missing components read as zero (zero-padding); `"1.2.0"` versus
`"1.10.0"` ranks the second greater; and `checkForUpdates` returns exactly
the modules whose first catalog entry's version compares strictly greater
than the installed version under this comparison. -/
theorem compareVersions_numeric_spec (v1 v2 : String)
    (h1 : ∀ c ∈ jsSplitDot v1, (natOfDigits c.data).isSome = true)
    (h2 : ∀ c ∈ jsSplitDot v2, (natOfDigits c.data).isSome = true) :
    compareVersions v1 v2
      = specVersionCompare
          ((jsSplitDot v1).map (fun c => ((natOfDigits c.data).getD 0 : Int)))
          ((jsSplitDot v2).map (fun c => ((natOfDigits c.data).getD 0 : Int)))
    ∧ compareVersions "1.2.0" "1.10.0" = -1
    ∧ (∀ (modules : List InstalledModule)
         (catalog : String → Option (Bool × List CatalogEntry)) (u : UpdateRecord),
        u ∈ checkForUpdates modules catalog ↔
          ∃ m ∈ modules, ∃ entries latest rest,
            catalog m.name = some (true, entries) ∧ entries = latest :: rest
            ∧ compareVersions latest.version m.version > 0
            ∧ u = { moduleId := m.id, currentVersion := m.version,
                    latestVersion := latest.version }) := by
  refine ⟨?_, by decide, checkForUpdates_mem⟩
  rw [compareVersions, versionParts_of_digits v1 h1, versionParts_of_digits v2 h2]
  exact compareLoop_eq_spec _ _

/-- Witness for the C9 theorem at the spec's own example pair. -/
theorem compareVersions_numeric_spec_witness :
    (∀ c ∈ jsSplitDot "1.2.0", (natOfDigits c.data).isSome = true)
    ∧ (∀ c ∈ jsSplitDot "1.10.0", (natOfDigits c.data).isSome = true)
    ∧ compareVersions "1.2.0" "1.10.0" = -1 :=
  ⟨by decide, by decide,
   (compareVersions_numeric_spec "1.2.0" "1.10.0" (by decide) (by decide)).2.1⟩

/-- C10 counterexample: `"1.0.5-beta"` versus `"1.0.3"` has numerically
equal preceding components and a non-numeric third component, yet
`compareVersions` returns -1, not 0: `Number` yields NaN but the
`parts[i] || 0` fallback coerces it to 0, and 0 < 3. -/
theorem compareVersions_nan_cex :
    compareVersions "1.0.5-beta" "1.0.3" = -1
    ∧ compareVersions "1.0.5-beta" "1.0.3" ≠ 0 :=
  ⟨by decide, by decide⟩

/-- C10 (amended): a non-numeric dot-component is not left as an
incomparable NaN — the `|| 0` fallback coerces it to 0, so such a version
compares exactly as if the component were 0 and is silently accepted, never
rejected; `"1.0.0-beta"` equals `"1.0.0"`, and `"1.0.5-beta"` compares
like `"1.0.0"` against every version on either side. -/
theorem compareVersions_nonNumeric_as_zero (v : String) :
    compareVersions "1.0.5-beta" v = compareVersions "1.0.0" v
    ∧ compareVersions v "1.0.5-beta" = compareVersions v "1.0.0"
    ∧ compareVersions "1.0.0-beta" "1.0.0" = 0 := by
  have h1 : versionParts "1.0.5-beta" = versionParts "1.0.0" := by decide
  refine ⟨?_, ?_, by decide⟩
  · rw [compareVersions, compareVersions, h1]
  · rw [compareVersions, compareVersions, h1]

theorem jsRound_div_eq (w t : Nat) (ht : 0 < t) :
    jsRound (((w : ℚ) / (t : ℚ)) * 100) = (((200 * w + t) / (2 * t) : ℕ) : ℤ) := by
  have key : (w : ℚ) / t * 100 + 1 / 2 = ((200 * w + t : ℕ) : ℚ) / ((2 * t : ℕ) : ℚ) := by
    have htq : ((t : ℚ)) ≠ 0 := by exact_mod_cast ht.ne'
    push_cast
    field_simp
    ring
  rw [jsRound, key, Rat.floor_natCast_div_natCast]
  exact_mod_cast rfl

theorem chunkStep_lookup (st : QMState) (r : Nat) (t w : Nat) (d : Download)
    (hd : getAssoc st.heap r = some d) :
    getAssoc (chunkStep st r t w).heap r
      = some { d with
          downloadedBytes := w,
          progress := (if t > 0 then jsRound (((w : ℚ) / (t : ℚ)) * 100)
                       else d.progress) } := by
  unfold chunkStep
  rw [heapUpdate_heap, getAssoc_updateRef, hd]
  simp

/-- C6 counterexample: with Content-Length 256 and 255 bytes received the
chunk handler records progress 100 (`Math.round`), while the claimed
formula floor(255/256·100) is 99. -/
theorem chunkStep_floor_cex :
    ((getAssoc (chunkStep cexSt 0 256 255).heap 0).map Download.progress) = some 100
    ∧ (⌊((255 : ℚ) / (256 : ℚ)) * 100⌋ : ℤ) = 99 := by
  constructor
  · rw [chunkStep_lookup cexSt 0 256 255 (newDownload cexInfo 0) rfl]
    simp only [Option.map_some']
    rw [if_pos (by omega), jsRound_div_eq 255 256 (by omega)]
    decide
  · have hq : ((255 : ℚ) / (256 : ℚ)) * 100 = ((25500 : ℕ) : ℚ) / ((256 : ℕ) : ℚ) := by
      norm_num
    rw [hq, Rat.floor_natCast_div_natCast]
    decide

/-- C6 (amended): after each received chunk with a known total the
descriptor's progress is `Math.round((downloaded/total)·100)` — the floor
of the quotient plus one half, equal to `(200·downloaded + total) / (2·total)`
in integer division — not the plain floor; with an unknown total the
progress is left unchanged; `downloadedBytes` is always updated. -/
theorem chunkStep_progress (st : QMState) (r : Nat) (t w : Nat) (d : Download)
    (hd : getAssoc st.heap r = some d) :
    (0 < t →
      ((getAssoc (chunkStep st r t w).heap r).map Download.progress)
        = some (jsRound (((w : ℚ) / (t : ℚ)) * 100))
      ∧ jsRound (((w : ℚ) / (t : ℚ)) * 100) = (((200 * w + t) / (2 * t) : ℕ) : ℤ))
    ∧ (t = 0 →
      ((getAssoc (chunkStep st r t w).heap r).map Download.progress) = some d.progress)
    ∧ ((getAssoc (chunkStep st r t w).heap r).map Download.downloadedBytes) = some w := by
  refine ⟨fun ht => ⟨?_, jsRound_div_eq w t ht⟩, fun ht => ?_, ?_⟩
  · rw [chunkStep_lookup st r t w d hd]
    simp only [Option.map_some']
    rw [if_pos ht]
  · rw [chunkStep_lookup st r t w d hd]
    simp only [Option.map_some']
    rw [if_neg (by omega)]
  · rw [chunkStep_lookup st r t w d hd]
    rfl

/-- Witness for the C6 theorem on the concrete one-descriptor manager. -/
theorem chunkStep_progress_witness :
    getAssoc cexSt.heap 0 = some (newDownload cexInfo 0)
    ∧ ((getAssoc (chunkStep cexSt 0 1000 100).heap 0).map Download.progress)
        = some (jsRound (((100 : ℚ) / (1000 : ℚ)) * 100)) :=
  ⟨rfl,
   ((chunkStep_progress cexSt 0 1000 100 (newDownload cexInfo 0) rfl).1
     (by omega)).1⟩

/-- C5 counterexample: a 200 transfer writes a 60-byte chunk, then pause
aborts the next chunk; the promise rejects `Download paused` but the
60-byte partial file remains at the destination (no unlink on this path). -/
theorem transfer_pause_leftover_cex :
    (runBody 0 1000 [BodyEvent.chunk false 60, BodyEvent.chunk true 40]
      cexSt 0 (some 0)).2
      = (Except.error "Download paused", some 60) := rfl

/-- C5 (amended): the partial destination file is removed only on the
write-stream error path (best-effort unlink).  A non-200, non-redirect
status, a request error arriving before any response, and a redirect
lacking a `Location` header all reject before any file is created.  A
pause abort, and a request-error rejection arriving mid-body (which is how
a cancel's `request.destroy()` surfaces), leave the partial file on disk
with the bytes written so far. -/
theorem transfer_failure_file (r : Nat) (t : Nat) :
    (∀ (lens : List Nat) (msg : String) (st : QMState) (w : Nat) (f : Option Nat),
       ∃ st', runBody r t (lens.map (fun n => BodyEvent.chunk false n)
                ++ [BodyEvent.streamError msg]) st w f
               = (st', Except.error msg, none))
    ∧ (∀ (st : QMState) (code : Nat) (loc : Option String) (cl : Option Nat)
         (body : List BodyEvent) (rest : List NetStep),
        code ≠ 200 → code ≠ 301 → code ≠ 302 →
        downloadFile st r (NetStep.response code loc cl body :: rest)
          = (st, Except.error ("Download failed with status " ++ toString code), none))
    ∧ (∀ (lens : List Nat) (len : Nat) (evs : List BodyEvent) (st : QMState)
         (w : Nat) (f0 : Nat),
        ∃ st', runBody r t (lens.map (fun n => BodyEvent.chunk false n)
                 ++ BodyEvent.chunk true len :: evs) st w (some f0)
               = (st', Except.error "Download paused", some (f0 + lens.sum)))
    ∧ (∀ (lens : List Nat) (msg : String) (evs : List BodyEvent) (st : QMState)
         (w : Nat) (f0 : Nat),
        ∃ st', runBody r t (lens.map (fun n => BodyEvent.chunk false n)
                 ++ BodyEvent.requestError msg :: evs) st w (some f0)
               = (st', Except.error msg, some (f0 + lens.sum)))
    ∧ (∀ (st : QMState) (msg : String) (rest : List NetStep),
        downloadFile st r (NetStep.reqError msg :: rest)
          = (st, Except.error msg, none))
    ∧ (∀ (st : QMState) (code : Nat) (cl : Option Nat) (body : List BodyEvent)
         (rest : List NetStep),
        code = 302 ∨ code = 301 →
        downloadFile st r (NetStep.response code none cl body :: rest)
          = (st, Except.error "Redirect location not found", none)) := by
  refine ⟨?_, ?_, ?_, ?_, ?_, ?_⟩
  · intro lens
    induction lens with
    | nil =>
      intro msg st w f
      exact ⟨st, rfl⟩
    | cons a as ih =>
      intro msg st w f
      obtain ⟨st', hst'⟩ := ih msg (chunkStep st r t (w + a)) (w + a)
        (f.map (fun n => n + a))
      refine ⟨st', ?_⟩
      rw [List.map_cons, List.cons_append, runBody]
      simp only [Bool.false_eq_true, if_false]
      exact hst'
  · intro st code loc cl body rest h200 h301 h302
    rw [downloadFile.eq_def]
    dsimp only []
    rw [if_neg (by rintro (h | h) <;> omega)]
    rw [if_pos h200]
  · intro lens
    induction lens with
    | nil =>
      intro len evs st w f0
      refine ⟨st, ?_⟩
      simp [runBody]
    | cons a as ih =>
      intro len evs st w f0
      obtain ⟨st', hst'⟩ := ih len evs (chunkStep st r t (w + a)) (w + a) (f0 + a)
      refine ⟨st', ?_⟩
      rw [List.map_cons, List.cons_append, runBody]
      simp only [Bool.false_eq_true, if_false]
      have hmap : (some f0).map (fun n => n + a) = some (f0 + a) := rfl
      rw [hmap, hst']
      have hsum : f0 + a + as.sum = f0 + (a :: as).sum := by
        simp [List.sum_cons]
        omega
      rw [hsum]
  · intro lens
    induction lens with
    | nil =>
      intro msg evs st w f0
      refine ⟨st, ?_⟩
      simp [runBody]
    | cons a as ih =>
      intro msg evs st w f0
      obtain ⟨st', hst'⟩ := ih msg evs (chunkStep st r t (w + a)) (w + a) (f0 + a)
      refine ⟨st', ?_⟩
      rw [List.map_cons, List.cons_append, runBody]
      simp only [Bool.false_eq_true, if_false]
      have hmap : (some f0).map (fun n => n + a) = some (f0 + a) := rfl
      rw [hmap, hst']
      have hsum : f0 + a + as.sum = f0 + (a :: as).sum := by
        simp [List.sum_cons]
        omega
      rw [hsum]
  · intro st msg rest
    rfl
  · intro st code cl body rest h
    rw [downloadFile.eq_def]
    dsimp only []
    rw [if_pos h]

/-- Witness for the C5 theorem on a concrete 404 response. -/
theorem transfer_failure_file_witness :
    ((404 : Nat) ≠ 200 ∧ (404 : Nat) ≠ 301 ∧ (404 : Nat) ≠ 302)
    ∧ downloadFile cexSt 0 [NetStep.response 404 none none []]
        = (cexSt, Except.error ("Download failed with status " ++ toString 404), none) :=
  ⟨by decide,
   (transfer_failure_file 0 0).2.1 cexSt 404 none none [] []
     (by decide) (by decide) (by decide)⟩

theorem getInstalledModule_storeList (st : MMState) (i : String) :
    (getInstalledModule st i).1.storeList = st.storeList := by
  unfold getInstalledModule
  split
  · rfl
  · split <;> rfl

theorem getInstalledModule_installedDirs (st : MMState) (i : String) :
    (getInstalledModule st i).1.installedDirs = st.installedDirs := by
  unfold getInstalledModule
  split
  · rfl
  · split <;> rfl

theorem getInstalledModule_tempDirs (st : MMState) (i : String) :
    (getInstalledModule st i).1.tempDirs = st.tempDirs := by
  unfold getInstalledModule
  split
  · rfl
  · split <;> rfl

theorem getInstalledModule_activeIds (st : MMState) (i : String) :
    (getInstalledModule st i).1.activeIds = st.activeIds := by
  unfold getInstalledModule
  split
  · rfl
  · split <;> rfl

theorem getInstalledModule_congr (st st' : MMState) (i : String)
    (hm : st'.memMap = st.memMap) (hs : st'.storeList = st.storeList) :
    (getInstalledModule st' i).2 = (getInstalledModule st i).2 := by
  unfold getInstalledModule
  rw [hm, hs]
  cases hg : getAssoc st.memMap i with
  | some m => rfl
  | none =>
    cases hf : st.storeList.find? (fun m => decide (m.id = i)) with
    | some m => rfl
    | none => rfl

theorem getInstalledModule_cache (st : MMState) (i : String) (ex : InstalledModule)
    (h : (getInstalledModule st i).2 = some ex) :
    getAssoc (getInstalledModule st i).1.memMap i = some ex := by
  unfold getInstalledModule at h ⊢
  rcases hm : getAssoc st.memMap i with _ | m
  · simp only [hm] at h ⊢
    rcases hf : st.storeList.find? (fun m => decide (m.id = i)) with _ | m
    · simp only [hf] at h
      exact Option.noConfusion h
    · simp only [hf] at h ⊢
      rw [getAssoc_setAssoc_self]
      exact h
  · simp only [hm] at h ⊢
    exact h

theorem getInstalledModule_pair (st : MMState) (i : String) (ex : InstalledModule)
    (h : (getInstalledModule st i).2 = some ex) :
    getInstalledModule st i = ((getInstalledModule st i).1, some ex) := by
  rw [← h]

theorem getInstalledModule_of_cache (st : MMState) (i : String) (ex : InstalledModule)
    (h : getAssoc st.memMap i = some ex) :
    getInstalledModule st i = (st, some ex) := by
  unfold getInstalledModule
  rw [h]

/-- C2: installing an archive whose manifest repeats the id and the version
of an already-installed module fails with the duplicate-install error, and
the persisted installed-modules list, the existing installation record and
the module directories are unchanged by the call (the staging directory is
swept). -/
theorem installModule_duplicate_unchanged (st : MMState) (archive : Archive)
    (ts : Nat) (info : ModuleInfo) (m : Manifest) (ex : InstalledModule)
    (hm : archive.manifest = some m)
    (hv : validateManifest m = Except.ok ())
    (hex : (getInstalledModule st ((m.id).getD "")).2 = some ex)
    (hdup : m.version = some ex.version) :
    (installModule st archive ts info).2
      = Except.error ("Module " ++ jsShow m.displayName ++ " v"
          ++ jsShow m.version ++ " is already installed")
    ∧ (installModule st archive ts info).1.storeList = st.storeList
    ∧ (installModule st archive ts info).1.installedDirs = st.installedDirs
    ∧ (getInstalledModule (installModule st archive ts info).1 ((m.id).getD "")).2
        = some ex := by
  have hg1 : (getInstalledModule (installExtract st archive ts) ((m.id).getD "")).2
      = some ex := by
    rw [getInstalledModule_congr st (installExtract st archive ts)
      ((m.id).getD "") rfl rfl]
    exact hex
  have hres : installResolveConflict (installExtract st archive ts) m
      = ((getInstalledModule (installExtract st archive ts) ((m.id).getD "")).1,
         Except.error ("Module " ++ jsShow m.displayName ++ " v"
           ++ jsShow m.version ++ " is already installed")) := by
    unfold installResolveConflict
    rw [getInstalledModule_pair _ _ ex hg1]
    dsimp only []
    rw [if_pos hdup]
  have hmain : installModule st archive ts info
      = (cleanupTemp
          (getInstalledModule (installExtract st archive ts) ((m.id).getD "")).1,
         Except.error ("Module " ++ jsShow m.displayName ++ " v"
           ++ jsShow m.version ++ " is already installed")) := by
    unfold installModule
    rw [hm]
    dsimp only []
    rw [hv]
    dsimp only []
    rw [hres]
  refine ⟨?_, ?_, ?_, ?_⟩
  · rw [hmain]
  · rw [hmain]
    exact getInstalledModule_storeList (installExtract st archive ts) ((m.id).getD "")
  · rw [hmain]
    exact getInstalledModule_installedDirs (installExtract st archive ts) ((m.id).getD "")
  · rw [hmain]
    dsimp only []
    rw [getInstalledModule_of_cache
      (cleanupTemp (getInstalledModule (installExtract st archive ts)
        ((m.id).getD "")).1) ((m.id).getD "") ex
      (getInstalledModule_cache (installExtract st archive ts) ((m.id).getD "") ex hg1)]

/-- Witness for the C2 theorem on a concrete one-module manager and a
same-id same-version archive. -/
theorem installModule_duplicate_unchanged_witness :
    (wArchive.manifest = some wManifest
     ∧ validateManifest wManifest = Except.ok ()
     ∧ (getInstalledModule wSt ((wManifest.id).getD "")).2 = some wEx
     ∧ wManifest.version = some wEx.version)
    ∧ (installModule wSt wArchive 7 wInfo).2
        = Except.error ("Module " ++ jsShow wManifest.displayName ++ " v"
            ++ jsShow wManifest.version ++ " is already installed") :=
  ⟨⟨rfl, rfl, rfl, rfl⟩,
   (installModule_duplicate_unchanged wSt wArchive 7 wInfo wManifest wEx
     rfl rfl rfl rfl).1⟩

theorem uninstallModule_spec (st : MMState) (mid : String) (ex : InstalledModule)
    (h : getAssoc st.memMap mid = some ex) :
    (uninstallModule st mid).2 = Except.ok ()
    ∧ (∀ rec ∈ (uninstallModule st mid).1.storeList, rec.id ≠ mid)
    ∧ (uninstallModule st mid).1.installedDirs
        = st.installedDirs.filter (fun e => decide (e.1 ≠ ex.installPath))
    ∧ getAssoc (uninstallModule st mid).1.memMap mid = none := by
  unfold uninstallModule
  rw [getInstalledModule_of_cache st mid ex h]
  dsimp only []
  by_cases he : ex.enabled = true
  · rw [if_pos he]
    unfold disableModule
    rw [getInstalledModule_of_cache st mid ex h]
    dsimp only []
    rw [he]
    simp only [Bool.not_true, Bool.false_eq_true, if_false]
    refine ⟨by trivial, ?_, by trivial, ?_⟩
    · intro rec hrec
      have hmem := List.mem_filter.mp hrec
      simpa using hmem.2
    · exact getAssoc_filter_ne _ mid
  · rw [if_neg he]
    refine ⟨by trivial, ?_, by trivial, ?_⟩
    · intro rec hrec
      have hmem := List.mem_filter.mp hrec
      simpa using hmem.2
    · exact getAssoc_filter_ne _ mid

/-- C4 counterexample: install-from-download passes the download descriptor
as the caller metadata, and its `id` is the generated name-plus-timestamp
queue id; the `...moduleInfo` spread registers the new record under that id,
so the upgrade install succeeds yet zero records with the shared manifest
id `a` remain — not exactly one as claimed. -/
theorem installModule_upgrade_cex :
    (installModule wSt wArchive2 9 wInfoDesc).2
      = Except.ok (mkInstallation wManifest2 wInfoDesc ("tools", "a") 9
          wArchive2.size)
    ∧ (mkInstallation wManifest2 wInfoDesc ("tools", "a") 9 wArchive2.size).id
        = "a-1234"
    ∧ ((installModule wSt wArchive2 9 wInfoDesc).1.storeList.filter
        (fun rec => decide (rec.id = "a"))).length = 0 :=
  ⟨by rfl, by decide, by decide⟩

/-- C4 (amended): installing an archive whose manifest shares the id of an
installed module with a different version first fully uninstalls the old
module — the state handed to the move step has no record with that id and
no directory at the old install path — and, provided the caller metadata
does not override the manifest id (its `id` property absent or equal to
it; the `...moduleInfo` spread takes priority), after success exactly one
record with that id exists, with the new directory in place (the old one
gone unless it is the same path, where the new content replaced it). -/
theorem installModule_upgrade (st : MMState) (archive : Archive) (ts : Nat)
    (info : ModuleInfo) (m : Manifest) (ex : InstalledModule)
    (hm : archive.manifest = some m)
    (hv : validateManifest m = Except.ok ())
    (hex : (getInstalledModule st ((m.id).getD "")).2 = some ex)
    (hver : ¬(m.version = some ex.version))
    (hinfo : info.id = none ∨ info.id = some ((m.id).getD "")) :
    (installResolveConflict (installExtract st archive ts) m).2 = Except.ok ()
    ∧ (∀ rec ∈ (installResolveConflict (installExtract st archive ts) m).1.storeList,
        rec.id ≠ (m.id).getD "")
    ∧ getAssoc (installResolveConflict (installExtract st archive ts) m).1.installedDirs
        ex.installPath = none
    ∧ (installModule st archive ts info).2
        = Except.ok (mkInstallation m info (((m.category).getD ""), (m.id).getD "")
            ts archive.size)
    ∧ ((installModule st archive ts info).1.storeList.filter
         (fun rec => decide (rec.id = (m.id).getD ""))).length = 1
    ∧ getAssoc (installModule st archive ts info).1.installedDirs
        (((m.category).getD ""), (m.id).getD "") = some archive
    ∧ (ex.installPath ≠ (((m.category).getD ""), (m.id).getD "") →
        getAssoc (installModule st archive ts info).1.installedDirs ex.installPath
          = none) := by
  have hg1 : (getInstalledModule (installExtract st archive ts) ((m.id).getD "")).2
      = some ex := by
    rw [getInstalledModule_congr st (installExtract st archive ts)
      ((m.id).getD "") rfl rfl]
    exact hex
  have hcache : getAssoc
      (getInstalledModule (installExtract st archive ts) ((m.id).getD "")).1.memMap
      ((m.id).getD "") = some ex :=
    getInstalledModule_cache (installExtract st archive ts) ((m.id).getD "") ex hg1
  have huspec := uninstallModule_spec
    (getInstalledModule (installExtract st archive ts) ((m.id).getD "")).1
    ((m.id).getD "") ex hcache
  have hresolve : installResolveConflict (installExtract st archive ts) m
      = uninstallModule
          (getInstalledModule (installExtract st archive ts) ((m.id).getD "")).1
          ((m.id).getD "") := by
    unfold installResolveConflict
    rw [getInstalledModule_pair _ _ ex hg1]
    dsimp only []
    rw [if_neg hver]
  have hpair2 : uninstallModule
      (getInstalledModule (installExtract st archive ts) ((m.id).getD "")).1
      ((m.id).getD "")
      = ((uninstallModule
          (getInstalledModule (installExtract st archive ts) ((m.id).getD "")).1
          ((m.id).getD "")).1, Except.ok ()) := by
    rw [← huspec.1]
  have hmain : installModule st archive ts info
      = ({ storeList :=
             (uninstallModule
               (getInstalledModule (installExtract st archive ts) ((m.id).getD "")).1
               ((m.id).getD "")).1.storeList
             ++ [mkInstallation m info (((m.category).getD ""), (m.id).getD "")
                   ts archive.size],
           memMap := setAssoc
             (uninstallModule
               (getInstalledModule (installExtract st archive ts) ((m.id).getD "")).1
               ((m.id).getD "")).1.memMap ((m.id).getD "")
             (mkInstallation m info (((m.category).getD ""), (m.id).getD "")
               ts archive.size),
           activeIds :=
             (uninstallModule
               (getInstalledModule (installExtract st archive ts) ((m.id).getD "")).1
               ((m.id).getD "")).1.activeIds,
           installedDirs := setAssoc
             (uninstallModule
               (getInstalledModule (installExtract st archive ts) ((m.id).getD "")).1
               ((m.id).getD "")).1.installedDirs
             (((m.category).getD ""), (m.id).getD "") archive,
           tempDirs :=
             (uninstallModule
               (getInstalledModule (installExtract st archive ts) ((m.id).getD "")).1
               ((m.id).getD "")).1.tempDirs.filter (fun e => decide (e.1 ≠ ts)) },
         Except.ok (mkInstallation m info (((m.category).getD ""), (m.id).getD "")
           ts archive.size)) := by
    unfold installModule
    rw [hm]
    dsimp only []
    rw [hv]
    dsimp only []
    rw [hresolve, hpair2]
  have hinstid : (mkInstallation m info (((m.category).getD ""), (m.id).getD "")
      ts archive.size).id = (m.id).getD "" := by
    rcases hinfo with h | h <;> simp [mkInstallation, h]
  refine ⟨?_, ?_, ?_, ?_, ?_, ?_, ?_⟩
  · rw [hresolve]
    exact huspec.1
  · rw [hresolve]
    exact huspec.2.1
  · rw [hresolve, huspec.2.2.1]
    exact getAssoc_filter_ne _ ex.installPath
  · rw [hmain]
  · rw [hmain]
    dsimp only []
    rw [List.filter_append]
    have hnil : (uninstallModule
        (getInstalledModule (installExtract st archive ts) ((m.id).getD "")).1
        ((m.id).getD "")).1.storeList.filter
        (fun rec => decide (rec.id = (m.id).getD "")) = [] := by
      rw [List.filter_eq_nil_iff]
      intro rec hrec
      simpa using huspec.2.1 rec hrec
    rw [hnil]
    simp [hinstid]
  · rw [hmain]
    dsimp only []
    exact getAssoc_setAssoc_self _ _ _
  · intro hne
    rw [hmain]
    dsimp only []
    rw [getAssoc_setAssoc_ne _ _ _ _ hne, huspec.2.2.1]
    exact getAssoc_filter_ne _ ex.installPath

/-- Witness for the C4 theorem: upgrading the installed 1.0.0 module to a
2.0.0 archive succeeds with the merged record. -/
theorem installModule_upgrade_witness :
    (wArchive2.manifest = some wManifest2
     ∧ validateManifest wManifest2 = Except.ok ()
     ∧ (getInstalledModule wSt ((wManifest2.id).getD "")).2 = some wEx
     ∧ ¬(wManifest2.version = some wEx.version)
     ∧ (wInfo.id = none ∨ wInfo.id = some ((wManifest2.id).getD "")))
    ∧ (installModule wSt wArchive2 9 wInfo).2
        = Except.ok (mkInstallation wManifest2 wInfo
            (((wManifest2.category).getD ""), (wManifest2.id).getD "") 9
            wArchive2.size) :=
  ⟨⟨rfl, rfl, rfl, by decide, Or.inl rfl⟩,
   (installModule_upgrade wSt wArchive2 9 wInfo wManifest2 wEx
     rfl rfl rfl (by decide) (Or.inl rfl)).2.2.2.1⟩
